import Mathlib

/-!
Verification of the Fillanthropist broadcast server against its design
document.  The TypeScript source is shallowly embedded: `bigint` values
become `Int` (with TypeScript's truncating division modelled by
`Int.tdiv` and its throwing division-by-zero modelled by an explicit
error branch), JavaScript strings become `List Char`, thrown exceptions
become `Except`, and the keccak / ecrecover primitives become explicit
function parameters.
-/

namespace Fillanthropist

/-- WAD fixed-point scale: `BigInt(1e18)` in the source. -/
def WAD : Int := 1000000000000000000

/-- Failure modes of the settlement-math functions in `src/client/utils.ts`:
`unimplemented` is the thrown `Error("unimplemented")`, `divisionByZero` is
the `RangeError` TypeScript raises when a `bigint` division has divisor 0. -/
inductive ScaleError where
  | unimplemented
  | divisionByZero
  deriving DecidableEq

/-- The `priorityFeeAboveBaseline` binding of `deriveSettlementAmount`:
`priorityFee < baselinePriorityFee ? 0n : priorityFee - baselinePriorityFee`. -/
def priorityFeeAboveBaseline (priorityFee baselinePriorityFee : Int) : Int :=
  if priorityFee < baselinePriorityFee then 0 else priorityFee - baselinePriorityFee

/-- Embedding of `deriveSettlementAmount` from `src/client/utils.ts`.
TypeScript `bigint` division truncates toward zero, hence `Int.tdiv`;
`mulWadUp` is written out as `(a * b + 1e18 - 1) / 1e18` as in the source. -/
def deriveSettlementAmount (priorityFee minimumAmount baselinePriorityFee scalingFactor : Int) :
    Except ScaleError Int :=
  if priorityFeeAboveBaseline priorityFee baselinePriorityFee = 0 ∨ scalingFactor = WAD then
    .ok minimumAmount
  else if WAD < scalingFactor then
    .ok ((minimumAmount *
      (WAD + (scalingFactor - WAD) * priorityFeeAboveBaseline priorityFee baselinePriorityFee)
      + WAD - 1).tdiv WAD)
  else
    .error .unimplemented

/-- Embedding of `derivePriorityFee` from `src/client/utils.ts`.  The
division `remainder / (minimumAmount * (scalingFactor - 1e18))` throws a
`RangeError` in TypeScript when the divisor is zero; that implicit throw is
made explicit here. -/
def derivePriorityFee (desiredSettlement minimumAmount baselinePriorityFee scalingFactor : Int) :
    Except ScaleError Int :=
  if desiredSettlement = minimumAmount ∨ scalingFactor = WAD then
    .ok baselinePriorityFee
  else if WAD < scalingFactor then
    if minimumAmount * (scalingFactor - WAD) = 0 then
      .error .divisionByZero
    else
      .ok ((desiredSettlement * WAD - minimumAmount * WAD).tdiv
        (minimumAmount * (scalingFactor - WAD)) + baselinePriorityFee)
  else
    .error .unimplemented

/-- Modelled from the spec: `ceilDiv(a, b)` rounds the rational quotient
`a / b` up (toward positive infinity); for `b > 0` this is
`(a + b - 1)` floor-divided by `b`. -/
def ceilDiv (a b : Int) : Int := (a + b - 1).fdiv b

/-- Modelled from the spec: the reference definition of the settlement
amount in section 4.1 — `excess = max(0, priorityFee - baselinePriorityFee)`;
return `minimumAmount` when `excess == 0` or `scalingFactor == 1e18`; for
`scalingFactor > 1e18` return
`ceilDiv(minimumAmount * (1e18 + (scalingFactor - 1e18) * excess), 1e18)`;
for `scalingFactor < 1e18` fail with `UnimplementedScaling`. -/
def deriveSettlementAmountSpec
    (priorityFee minimumAmount baselinePriorityFee scalingFactor : Int) :
    Except ScaleError Int :=
  if max (priorityFee - baselinePriorityFee) 0 = 0 ∨ scalingFactor = WAD then
    .ok minimumAmount
  else if WAD < scalingFactor then
    .ok (ceilDiv (minimumAmount *
      (WAD + (scalingFactor - WAD) * max (priorityFee - baselinePriorityFee) 0)) WAD)
  else
    .error .unimplemented

theorem wad_pos : (0 : Int) < WAD := by decide

theorem priorityFeeAboveBaseline_eq_max (pf base : Int) :
    priorityFeeAboveBaseline pf base = max (pf - base) 0 := by
  unfold priorityFeeAboveBaseline
  split <;> omega

theorem priorityFeeAboveBaseline_nonneg (pf base : Int) :
    0 ≤ priorityFeeAboveBaseline pf base := by
  unfold priorityFeeAboveBaseline
  split <;> omega

/-- C3: on the unsigned-integer domain of section 4.1, the implementation of
`deriveSettlementAmount` coincides with the spec's reference definition, and
the worked example (minimumAmount 0.95e18, baselinePriorityFee 100e9,
scalingFactor 1.5e18, priorityFee baseline+2) yields 1.9e18. -/
theorem C3_settlement_matches_spec :
    (∀ priorityFee minimumAmount baselinePriorityFee scalingFactor : Int,
      0 ≤ priorityFee → 0 ≤ minimumAmount → 0 ≤ baselinePriorityFee → 0 ≤ scalingFactor →
      deriveSettlementAmount priorityFee minimumAmount baselinePriorityFee scalingFactor =
        deriveSettlementAmountSpec priorityFee minimumAmount baselinePriorityFee scalingFactor)
    ∧ deriveSettlementAmount (100000000000 + 2) 950000000000000000
        100000000000 1500000000000000000 = .ok 1900000000000000000 := by
  constructor
  · intro pf mn base sf _ hmn _ _
    unfold deriveSettlementAmount deriveSettlementAmountSpec
    rw [priorityFeeAboveBaseline_eq_max]
    split_ifs with h1 h2
    · rfl
    · have hex : (0 : Int) ≤ max (pf - base) 0 := le_max_right _ _
      have hmult : (0 : Int) ≤ WAD + (sf - WAD) * max (pf - base) 0 := by
        have := mul_nonneg (by linarith : (0 : Int) ≤ sf - WAD) hex
        have := wad_pos
        linarith
      have hnum : (0 : Int) ≤ mn * (WAD + (sf - WAD) * max (pf - base) 0) + WAD - 1 := by
        have := mul_nonneg hmn hmult
        have := wad_pos
        linarith
      simp only [ceilDiv]
      rw [Int.tdiv_eq_ediv hnum (le_of_lt wad_pos),
        Int.fdiv_eq_ediv _ (le_of_lt wad_pos)]
    · rfl
  · rfl

/-- C3 witness: the universally quantified half evaluated at zero inputs. -/
theorem C3_settlement_matches_spec_witness :
    deriveSettlementAmount 0 0 0 0 = deriveSettlementAmountSpec 0 0 0 0 :=
  C3_settlement_matches_spec.1 0 0 0 0 (by decide) (by decide) (by decide) (by decide)

/-- C2 counterexample: with minimumAmount 1, baselinePriorityFee 0,
scalingFactor 3e18 (a valid exact-in configuration) and target settlement
S = 2 ≥ minimumAmount, the inverse function floors the required excess to 0,
so the round trip returns settlement 1 < 2, refuting
`deriveSettlementAmount(derivePriorityFee(S, ...), ...) >= S`. -/
theorem C2_round_trip_counterexample :
    (WAD < 3000000000000000000 ∧ (0 : Int) < 1 ∧ (1 : Int) ≤ 2) ∧
    (derivePriorityFee 2 1 0 3000000000000000000).bind
        (fun fee => deriveSettlementAmount fee 1 0 3000000000000000000) = .ok 1 ∧
    ¬ ((2 : Int) ≤ 1) :=
  ⟨⟨by decide, by decide, by decide⟩, rfl, by decide⟩

/-- C2 (amended): the round-trip guarantee
`deriveSettlementAmount(derivePriorityFee(S, min, base, scale), ...) >= S`
holds for exact-in inputs (`scale > 1e18`, `min > 0`, `S >= min`) under the
additional hypothesis `min * (scale - 1e18) <= 1e18`, i.e. when one wei of
priority fee above baseline raises the settlement by at most one unit —
otherwise the floored inverse can undershoot, as the counterexample shows. -/
theorem C2_round_trip_amended (S mn base sf : Int) (hsf : WAD < sf) (hmn : 0 < mn)
    (hS : mn ≤ S) (hstep : mn * (sf - WAD) ≤ WAD) :
    ∃ fee settlement,
      derivePriorityFee S mn base sf = .ok fee ∧
      deriveSettlementAmount fee mn base sf = .ok settlement ∧ S ≤ settlement := by
  rcases eq_or_lt_of_le hS with hEq | hGt
  · refine ⟨base, mn, ?_, ?_, le_of_eq hEq.symm⟩
    · unfold derivePriorityFee
      rw [if_pos (Or.inl hEq.symm)]
    · unfold deriveSettlementAmount priorityFeeAboveBaseline
      rw [if_neg (lt_irrefl base), if_pos (Or.inl (sub_self base))]
  · have hd : (0 : Int) < sf - WAD := by omega
    have hmd : (0 : Int) < mn * (sf - WAD) := mul_pos hmn hd
    have hnum : (0 : Int) ≤ S * WAD - mn * WAD := by
      have := mul_le_mul_of_nonneg_right hS (le_of_lt wad_pos)
      linarith
    have hfee : derivePriorityFee S mn base sf
        = .ok ((S * WAD - mn * WAD).tdiv (mn * (sf - WAD)) + base) := by
      unfold derivePriorityFee
      rw [if_neg (not_or.mpr ⟨ne_of_gt hGt, ne_of_gt hsf⟩), if_pos hsf,
        if_neg (ne_of_gt hmd)]
    obtain ⟨q, hqdef⟩ : ∃ q, (S * WAD - mn * WAD).tdiv (mn * (sf - WAD)) = q := ⟨_, rfl⟩
    rw [hqdef] at hfee
    have hqe : q = (S * WAD - mn * WAD) / (mn * (sf - WAD)) := by
      rw [← hqdef, Int.tdiv_eq_ediv hnum (le_of_lt hmd)]
    have hq1 : 1 ≤ q := by
      rw [hqe, Int.le_ediv_iff_mul_le hmd]
      have h2 : WAD * 1 ≤ WAD * (S - mn) := by
        apply mul_le_mul_of_nonneg_left _ (le_of_lt wad_pos)
        omega
      nlinarith
    have hqb : priorityFeeAboveBaseline (q + base) base = q := by
      unfold priorityFeeAboveBaseline
      rw [if_neg (by omega : ¬ (q + base < base))]
      ring
    have hset : deriveSettlementAmount (q + base) mn base sf
        = .ok ((mn * (WAD + (sf - WAD) * q) + WAD - 1).tdiv WAD) := by
      unfold deriveSettlementAmount
      rw [hqb, if_neg (not_or.mpr ⟨by omega, ne_of_gt hsf⟩), if_pos hsf]
    refine ⟨q + base, _, hfee, hset, ?_⟩
    have hmod := Int.ediv_add_emod (S * WAD - mn * WAD) (mn * (sf - WAD))
    have hmodlt : (S * WAD - mn * WAD) % (mn * (sf - WAD)) < mn * (sf - WAD) :=
      Int.emod_lt_of_pos _ hmd
    have hmodnn : 0 ≤ (S * WAD - mn * WAD) % (mn * (sf - WAD)) :=
      Int.emod_nonneg _ (ne_of_gt hmd)
    have hmulq : mn * (sf - WAD) * q
        = S * WAD - mn * WAD - (S * WAD - mn * WAD) % (mn * (sf - WAD)) := by
      rw [hqe]
      omega
    have hnum2 : (0 : Int) ≤ mn * (WAD + (sf - WAD) * q) + WAD - 1 := by
      have h1 : (0 : Int) ≤ (sf - WAD) * q := mul_nonneg (le_of_lt hd) (by omega)
      have h2 : (0 : Int) ≤ mn * (WAD + (sf - WAD) * q) :=
        mul_nonneg (le_of_lt hmn) (by have := wad_pos; linarith)
      have := wad_pos
      linarith
    rw [Int.tdiv_eq_ediv hnum2 (le_of_lt wad_pos), Int.le_ediv_iff_mul_le wad_pos]
    have hexpand : mn * (WAD + (sf - WAD) * q) = mn * WAD + mn * (sf - WAD) * q := by
      ring
    rw [hexpand, hmulq]
    have hremle : (S * WAD - mn * WAD) % (mn * (sf - WAD)) ≤ WAD - 1 := by
      have : mn * (sf - WAD) ≤ WAD := hstep
      omega
    nlinarith [wad_pos]

/-- C2 witness: the amended round trip at S = 3, min = 2, base = 5,
scale = 1e18 + 1. -/
theorem C2_round_trip_amended_witness :
    ∃ fee settlement,
      derivePriorityFee 3 2 5 (WAD + 1) = .ok fee ∧
      deriveSettlementAmount fee 2 5 (WAD + 1) = .ok settlement ∧ 3 ≤ settlement :=
  C2_round_trip_amended 3 2 5 (WAD + 1) (by decide) (by decide) (by decide) (by decide)

/-- C4: the exact-out direction (`scalingFactor < 1e18`) is unimplemented:
`deriveSettlementAmount` throws whenever the priority fee exceeds the
baseline, and `derivePriorityFee` throws whenever the desired settlement
differs from the minimum amount; neither returns a value. -/
theorem C4_exact_out_unimplemented :
    (∀ priorityFee minimumAmount baselinePriorityFee scalingFactor : Int,
      scalingFactor < WAD → baselinePriorityFee < priorityFee →
      deriveSettlementAmount priorityFee minimumAmount baselinePriorityFee scalingFactor =
        .error .unimplemented)
    ∧ (∀ desiredSettlement minimumAmount baselinePriorityFee scalingFactor : Int,
      scalingFactor < WAD → desiredSettlement ≠ minimumAmount →
      derivePriorityFee desiredSettlement minimumAmount baselinePriorityFee scalingFactor =
        .error .unimplemented) := by
  constructor
  · intro pf mn base sf hsf hpf
    unfold deriveSettlementAmount priorityFeeAboveBaseline
    rw [if_neg (by omega : ¬ (pf < base)),
      if_neg (not_or.mpr ⟨by omega, by omega⟩), if_neg (by omega)]
  · intro S mn base sf hsf hne
    unfold derivePriorityFee
    rw [if_neg (not_or.mpr ⟨hne, by omega⟩), if_neg (by omega)]

/-- C4 witness: both exact-out failure cases at concrete inputs. -/
theorem C4_exact_out_unimplemented_witness :
    deriveSettlementAmount 7 5 2 3 = .error .unimplemented ∧
    derivePriorityFee 9 5 2 3 = .error .unimplemented :=
  ⟨C4_exact_out_unimplemented.1 7 5 2 3 (by decide) (by decide),
   C4_exact_out_unimplemented.2 9 5 2 3 (by decide) (by decide)⟩

/-- C10: in the exact-in branch the divisor `minimumAmount * (scalingFactor
- 1e18)` is nonzero whenever `minimumAmount > 0`, so the division-by-zero
throw is unreachable; with `minimumAmount = 0` and a nonzero desired
settlement the function does divide by zero and throws. -/
theorem C10_division_by_zero :
    (∀ desiredSettlement minimumAmount baselinePriorityFee scalingFactor : Int,
      WAD < scalingFactor → 0 < minimumAmount →
      derivePriorityFee desiredSettlement minimumAmount baselinePriorityFee scalingFactor ≠
        .error .divisionByZero)
    ∧ (∀ desiredSettlement baselinePriorityFee scalingFactor : Int,
      WAD < scalingFactor → desiredSettlement ≠ 0 →
      derivePriorityFee desiredSettlement 0 baselinePriorityFee scalingFactor =
        .error .divisionByZero) := by
  constructor
  · intro S mn base sf hsf hmn
    unfold derivePriorityFee
    by_cases h1 : S = mn ∨ sf = WAD
    · rw [if_pos h1]
      exact fun h => Except.noConfusion h
    · rw [if_neg h1, if_pos hsf, if_neg (ne_of_gt (mul_pos hmn (by omega)))]
      exact fun h => Except.noConfusion h
  · intro S base sf hsf hS
    unfold derivePriorityFee
    rw [if_neg (not_or.mpr ⟨hS, ne_of_gt hsf⟩), if_pos hsf, if_pos (zero_mul _)]

/-- C10 witness: both halves at concrete inputs. -/
theorem C10_division_by_zero_witness :
    derivePriorityFee 9 4 2 (WAD + 3) ≠ .error .divisionByZero ∧
    derivePriorityFee 9 0 2 (WAD + 3) = .error .divisionByZero :=
  ⟨C10_division_by_zero.1 9 4 2 (WAD + 3) (by decide) (by decide),
   C10_division_by_zero.2 9 2 (WAD + 3) (by decide) (by decide)⟩

/-- C8: for a fixed exact-in configuration (`scalingFactor > 1e18`) on the
unsigned domain (`minimumAmount >= 0`), `deriveSettlementAmount` is
monotonically non-decreasing in the priority fee. -/
theorem C8_settlement_monotone (pf1 pf2 mn base sf : Int) (hsf : WAD < sf)
    (hmn : 0 ≤ mn) (hle : pf1 ≤ pf2) :
    ∃ s1 s2, deriveSettlementAmount pf1 mn base sf = .ok s1 ∧
      deriveSettlementAmount pf2 mn base sf = .ok s2 ∧ s1 ≤ s2 := by
  have hd : (0 : Int) < sf - WAD := by omega
  have ha1nn := priorityFeeAboveBaseline_nonneg pf1 base
  have ha2nn := priorityFeeAboveBaseline_nonneg pf2 base
  have haa : priorityFeeAboveBaseline pf1 base ≤ priorityFeeAboveBaseline pf2 base := by
    unfold priorityFeeAboveBaseline
    split_ifs <;> omega
  have hnum : ∀ a : Int, 0 ≤ a → (0 : Int) ≤ mn * (WAD + (sf - WAD) * a) + WAD - 1 := by
    intro a ha
    have h1 : (0 : Int) ≤ (sf - WAD) * a := mul_nonneg (le_of_lt hd) ha
    have h2 : (0 : Int) ≤ mn * (WAD + (sf - WAD) * a) :=
      mul_nonneg hmn (by have := wad_pos; linarith)
    have := wad_pos
    linarith
  unfold deriveSettlementAmount
  by_cases h2z : priorityFeeAboveBaseline pf2 base = 0
  · have h1z : priorityFeeAboveBaseline pf1 base = 0 := by omega
    rw [if_pos (Or.inl h1z), if_pos (Or.inl h2z)]
    exact ⟨mn, mn, rfl, rfl, le_refl mn⟩
  · by_cases h1z : priorityFeeAboveBaseline pf1 base = 0
    · rw [if_pos (Or.inl h1z), if_neg (not_or.mpr ⟨h2z, ne_of_gt hsf⟩), if_pos hsf]
      refine ⟨mn, _, rfl, rfl, ?_⟩
      rw [Int.tdiv_eq_ediv (hnum _ ha2nn) (le_of_lt wad_pos),
        Int.le_ediv_iff_mul_le wad_pos]
      have h1 : (0 : Int) ≤ mn * ((sf - WAD) * priorityFeeAboveBaseline pf2 base) :=
        mul_nonneg hmn (mul_nonneg (le_of_lt hd) ha2nn)
      nlinarith [wad_pos]
    · rw [if_neg (not_or.mpr ⟨h1z, ne_of_gt hsf⟩), if_neg (not_or.mpr ⟨h2z, ne_of_gt hsf⟩),
        if_pos hsf, if_pos hsf]
      refine ⟨_, _, rfl, rfl, ?_⟩
      rw [Int.tdiv_eq_ediv (hnum _ ha1nn) (le_of_lt wad_pos),
        Int.tdiv_eq_ediv (hnum _ ha2nn) (le_of_lt wad_pos)]
      apply Int.ediv_le_ediv wad_pos
      have hp : mn * ((sf - WAD) * priorityFeeAboveBaseline pf1 base)
          ≤ mn * ((sf - WAD) * priorityFeeAboveBaseline pf2 base) :=
        mul_le_mul_of_nonneg_left
          (mul_le_mul_of_nonneg_left haa (le_of_lt hd)) hmn
      nlinarith

/-- C8 witness: monotonicity applied at priority fees 3 ≤ 8. -/
theorem C8_settlement_monotone_witness :
    ∃ s1 s2, deriveSettlementAmount 3 10 1 (WAD + 2) = .ok s1 ∧
      deriveSettlementAmount 8 10 1 (WAD + 2) = .ok s2 ∧ s1 ≤ s2 :=
  C8_settlement_monotone 3 8 10 1 (WAD + 2) (by decide) (by decide) (by decide)

/-! ### Strings, hex parsing and ABI words

JavaScript strings are modelled as `List Char`; byte sequences as
`List Nat`.  `keccak256` is not embeddable, so every hashing definition
takes it as an explicit function parameter from byte sequences to 256-bit
numbers; the theorems below hold for every choice of that parameter. -/

/-- JavaScript string. -/
abbrev Str := List Char

/-- Byte sequence (entries are byte values). -/
abbrev Bytes := List Nat

/-- String.prototype.toLowerCase for the ASCII strings used here. -/
def toLowerCase (s : Str) : Str := s.map Char.toLower

/-- Value of a decimal digit character. -/
def decDigitVal (c : Char) : Nat := c.toNat - 48

/-- Numeric value of a canonical decimal string: models `BigInt(s)` /
`parseInt(s)` on the decimal timestamp and amount strings of the data
model. -/
def parseDecimal (s : Str) : Nat := s.foldl (fun acc c => acc * 10 + decDigitVal c) 0

/-- Value of a hex digit character, case-insensitively (as in hex parsing
of addresses and bytes32 literals). -/
def hexDigitVal (c : Char) : Nat :=
  if 48 ≤ c.toNat ∧ c.toNat ≤ 57 then c.toNat - 48
  else if 97 ≤ c.toNat ∧ c.toNat ≤ 102 then c.toNat - 87
  else if 65 ≤ c.toNat ∧ c.toNat ≤ 70 then c.toNat - 55
  else 0

/-- Drop a leading `0x` prefix. -/
def strip0x (s : Str) : Str :=
  match s with
  | '0' :: 'x' :: rest => rest
  | other => other

/-- Numeric value of a `0x`-prefixed hex string (address or bytes32). -/
def hexToNat (s : Str) : Nat := (strip0x s).foldl (fun acc c => acc * 16 + hexDigitVal c) 0

/-- UTF-8 bytes of an ASCII type string: models viem's `toBytes`. -/
def toByteValues (s : Str) : Bytes := s.map Char.toNat

/-- One 32-byte big-endian ABI word for a 256-bit value. -/
def word256 (v : Nat) : Bytes :=
  (List.range 32).map fun i => v / 256 ^ (31 - i) % 256

/-- ABI-encode a tuple of static 32-byte values (what
`encodeAbiParameters` does for the all-static tuples used here). -/
def encodeWords (ws : List Nat) : Bytes := (ws.map word256).flatten

/-! ### Data model (`src/types/broadcast.ts`) -/

/-- Mandate from `src/types/broadcast.ts`: the fill-side settlement terms.
`chainId` is a JavaScript number; all other fields are strings. -/
structure Mandate where
  chainId : Nat
  tribunal : Str
  recipient : Str
  expires : Str
  token : Str
  minimumAmount : Str
  baselinePriorityFee : Str
  scalingFactor : Str
  salt : Str
  deriving DecidableEq

/-- CompactMessage from `src/types/broadcast.ts`. -/
structure CompactMessage where
  arbiter : Str
  sponsor : Str
  nonce : Str
  expires : Str
  id : Str
  amount : Str
  mandate : Mandate
  deriving DecidableEq

/-- Thrown by `deriveClaimHash` when a required field is falsy. -/
inductive HashError where
  | missingField
  deriving DecidableEq

/-- The Compact EIP-712 type descriptor string from `src/client/utils.ts`. -/
def COMPACT_TYPESTRING : Str :=
  ("Compact(address arbiter,address sponsor,uint256 nonce,uint256 expires,uint256 id,uint256 amount,Mandate mandate)Mandate(uint256 chainId,address tribunal,address recipient,uint256 expires,address token,uint256 minimumAmount,uint256 baselinePriorityFee,uint256 scalingFactor,bytes32 salt)").data

/-- The Mandate EIP-712 type descriptor string from `src/client/utils.ts`. -/
def MANDATE_TYPESTRING : Str :=
  ("Mandate(uint256 chainId,address tribunal,address recipient,uint256 expires,address token,uint256 minimumAmount,uint256 baselinePriorityFee,uint256 scalingFactor,bytes32 salt)").data

/-- Embedding of `deriveClaimHash(chainId, compact)` from
`src/client/utils.ts` (the version the `/broadcast` handler imports).  The
falsy-field guards become explicit error branches (`0` for the numeric
`mandate.chainId`, the empty string for string fields); every address is
lower-cased before ABI encoding, exactly as in the source.  `keccak` is the
keccak256 primitive, mapping a byte sequence to a 256-bit number. -/
def deriveClaimHash (keccak : Bytes → Nat) (chainId : Nat) (compact : CompactMessage) :
    Except HashError Nat :=
  if compact.mandate.chainId = 0 then .error .missingField
  else if compact.mandate.tribunal = [] then .error .missingField
  else if compact.mandate.recipient = [] then .error .missingField
  else if compact.mandate.expires = [] then .error .missingField
  else if compact.mandate.token = [] then .error .missingField
  else if compact.mandate.minimumAmount = [] then .error .missingField
  else if compact.mandate.baselinePriorityFee = [] then .error .missingField
  else if compact.mandate.scalingFactor = [] then .error .missingField
  else if compact.mandate.salt = [] then .error .missingField
  else if compact.arbiter = [] then .error .missingField
  else if compact.sponsor = [] then .error .missingField
  else if compact.nonce = [] then .error .missingField
  else if compact.expires = [] then .error .missingField
  else if compact.id = [] then .error .missingField
  else if compact.amount = [] then .error .missingField
  else
    .ok (keccak (encodeWords
      [ keccak (toByteValues COMPACT_TYPESTRING)
      , hexToNat (toLowerCase compact.arbiter)
      , hexToNat (toLowerCase compact.sponsor)
      , parseDecimal compact.nonce
      , parseDecimal compact.expires
      , parseDecimal compact.id
      , parseDecimal compact.amount
      , keccak (encodeWords
          [ keccak (toByteValues MANDATE_TYPESTRING)
          , compact.mandate.chainId
          , hexToNat (toLowerCase compact.mandate.tribunal)
          , hexToNat (toLowerCase compact.mandate.recipient)
          , parseDecimal compact.mandate.expires
          , hexToNat (toLowerCase compact.mandate.token)
          , parseDecimal compact.mandate.minimumAmount
          , parseDecimal compact.mandate.baselinePriorityFee
          , parseDecimal compact.mandate.scalingFactor
          , hexToNat compact.mandate.salt ]) ]))

/-- Embedding of `deriveClaimHash(chainId, compact)` from
`src/server/utils.ts`: identical encoding (addresses lower-cased) but
without the falsy-field validation guards. -/
def deriveClaimHashServer (keccak : Bytes → Nat) (chainId : Nat)
    (compact : CompactMessage) : Nat :=
  keccak (encodeWords
    [ keccak (toByteValues COMPACT_TYPESTRING)
    , hexToNat (toLowerCase compact.arbiter)
    , hexToNat (toLowerCase compact.sponsor)
    , parseDecimal compact.nonce
    , parseDecimal compact.expires
    , parseDecimal compact.id
    , parseDecimal compact.amount
    , keccak (encodeWords
        [ keccak (toByteValues MANDATE_TYPESTRING)
        , compact.mandate.chainId
        , hexToNat (toLowerCase compact.mandate.tribunal)
        , hexToNat (toLowerCase compact.mandate.recipient)
        , parseDecimal compact.mandate.expires
        , hexToNat (toLowerCase compact.mandate.token)
        , parseDecimal compact.mandate.minimumAmount
        , parseDecimal compact.mandate.baselinePriorityFee
        , parseDecimal compact.mandate.scalingFactor
        , hexToNat compact.mandate.salt ]) ])

theorem toLowerCase_eq_empty_iff {a b : Str} (h : toLowerCase a = toLowerCase b) :
    (a = []) ↔ (b = []) := by
  have hl : a.length = b.length := by
    have := congrArg List.length h
    simpa [toLowerCase] using this
  rw [← List.length_eq_zero, ← List.length_eq_zero, hl]

/-- C7: the claim hash is case-insensitive on address fields: two compact
messages that differ only in the letter casing of arbiter, sponsor,
tribunal, recipient and token (all other fields equal) hash to the same
value under `deriveClaimHash`, for every keccak primitive and chainId. -/
theorem C7_claim_hash_case_insensitive (keccak : Bytes → Nat) (chainId : Nat)
    (c1 c2 : CompactMessage)
    (harb : toLowerCase c1.arbiter = toLowerCase c2.arbiter)
    (hspo : toLowerCase c1.sponsor = toLowerCase c2.sponsor)
    (htri : toLowerCase c1.mandate.tribunal = toLowerCase c2.mandate.tribunal)
    (hrec : toLowerCase c1.mandate.recipient = toLowerCase c2.mandate.recipient)
    (htok : toLowerCase c1.mandate.token = toLowerCase c2.mandate.token)
    (hnonce : c1.nonce = c2.nonce) (hexp : c1.expires = c2.expires)
    (hid : c1.id = c2.id) (hamt : c1.amount = c2.amount)
    (hmcid : c1.mandate.chainId = c2.mandate.chainId)
    (hmexp : c1.mandate.expires = c2.mandate.expires)
    (hmin : c1.mandate.minimumAmount = c2.mandate.minimumAmount)
    (hbase : c1.mandate.baselinePriorityFee = c2.mandate.baselinePriorityFee)
    (hscale : c1.mandate.scalingFactor = c2.mandate.scalingFactor)
    (hsalt : c1.mandate.salt = c2.mandate.salt) :
    deriveClaimHash keccak chainId c1 = deriveClaimHash keccak chainId c2 := by
  unfold deriveClaimHash
  simp only [harb, hspo, htri, hrec, htok, hnonce, hexp, hid, hamt, hmcid, hmexp,
    hmin, hbase, hscale, hsalt, toLowerCase_eq_empty_iff harb,
    toLowerCase_eq_empty_iff hspo, toLowerCase_eq_empty_iff htri,
    toLowerCase_eq_empty_iff hrec, toLowerCase_eq_empty_iff htok]

/-- A concrete mandate with lower-case addresses. -/
def mandateLower : Mandate :=
  { chainId := 10
  , tribunal := ("0xfaf8fd50f5b8d4a44e7d1bcc8d1f2ac0a7e1cafe").data
  , recipient := ("0x00000000000000000000000000000000000000ab").data
  , expires := ("1700000000").data
  , token := ("0x4200000000000000000000000000000000000006").data
  , minimumAmount := ("950000000000000000").data
  , baselinePriorityFee := ("100000000000").data
  , scalingFactor := ("1500000000000000000").data
  , salt := ("0x0000000000000000000000000000000000000000000000000000000000000001").data }

/-- The same mandate with upper-cased hex letters in its address fields. -/
def mandateUpper : Mandate :=
  { mandateLower with
    tribunal := ("0xFAF8FD50F5B8D4A44E7D1BCC8D1F2AC0A7E1CAFE").data
  , recipient := ("0x00000000000000000000000000000000000000AB").data
  , token := ("0x4200000000000000000000000000000000000006").data }

/-- A concrete compact message with lower-case addresses. -/
def compactLower : CompactMessage :=
  { arbiter := ("0x1111111111111111111111111111111111111111").data
  , sponsor := ("0x22222222222222222222222222222222222222cd").data
  , nonce := ("1").data
  , expires := ("1700000000").data
  , id := ("42").data
  , amount := ("1000000000000000000").data
  , mandate := mandateLower }

/-- The same compact message with upper-cased hex letters in its address
fields. -/
def compactUpper : CompactMessage :=
  { compactLower with
    arbiter := ("0x1111111111111111111111111111111111111111").data
  , sponsor := ("0x22222222222222222222222222222222222222CD").data
  , mandate := mandateUpper }

/-- C7 witness: the case-insensitivity theorem applied to a concrete pair
of differently-cased compact messages, with a concrete hash primitive. -/
theorem C7_claim_hash_case_insensitive_witness :
    deriveClaimHash (fun bs => bs.foldl (fun a b => a * 257 + b) 0) 10 compactLower =
      deriveClaimHash (fun bs => bs.foldl (fun a b => a * 257 + b) 0) 10 compactUpper :=
  C7_claim_hash_case_insensitive _ 10 compactLower compactUpper
    (by decide) (by decide) (by decide) (by decide) (by decide) rfl rfl rfl rfl rfl rfl
    rfl rfl rfl rfl

/-- C9: the claim hash ignores the `chainId` argument: for every keccak
primitive, compact message and any two chainId values the derived hash is
identical, in both the client and the server variant of `deriveClaimHash`;
only `mandate.chainId` (a field of the message itself) enters the hash. -/
theorem C9_claim_hash_chain_id_independent :
    (∀ (keccak : Bytes → Nat) (chainId1 chainId2 : Nat) (compact : CompactMessage),
      deriveClaimHash keccak chainId1 compact = deriveClaimHash keccak chainId2 compact)
    ∧ (∀ (keccak : Bytes → Nat) (chainId1 chainId2 : Nat) (compact : CompactMessage),
      deriveClaimHashServer keccak chainId1 compact =
        deriveClaimHashServer keccak chainId2 compact) :=
  ⟨fun _ _ _ _ => rfl, fun _ _ _ _ => rfl⟩

/-! ### Decimal rendering (`BigInt.prototype.toString`) and its inverse -/

/-- Decimal digit character for a value below 10. -/
def digitChar (n : Nat) : Char := Char.ofNat (48 + n)

/-- Accumulator-style decimal rendering. -/
def natToStrAux (n : Nat) (acc : List Char) : List Char :=
  if n < 10 then digitChar n :: acc
  else natToStrAux (n / 10) (digitChar (n % 10) :: acc)
termination_by n
decreasing_by exact Nat.div_lt_self (by omega) (by omega)

/-- Decimal rendering of a natural number: models `x.toString()` on a
nonnegative `bigint`. -/
def natToStr (n : Nat) : List Char := natToStrAux n []

theorem decDigitVal_digitChar (n : Nat) (h : n < 10) : decDigitVal (digitChar n) = n := by
  interval_cases n <;> decide

theorem natToStrAux_append (n : Nat) : ∀ acc : List Char,
    natToStrAux n acc = natToStrAux n [] ++ acc := by
  induction n using Nat.strong_induction_on with
  | _ n ih =>
    intro acc
    by_cases h : n < 10
    · rw [natToStrAux, if_pos h]
      conv_rhs => rw [natToStrAux, if_pos h]
      rfl
    · have hlt : n / 10 < n := Nat.div_lt_self (by omega) (by omega)
      rw [natToStrAux, if_neg h, ih (n / 10) hlt]
      conv_rhs => rw [natToStrAux, if_neg h, ih (n / 10) hlt]
      simp

theorem parse_natToStr_shift (n : Nat) : ∀ a : Nat,
    List.foldl (fun acc c => acc * 10 + decDigitVal c) a (natToStr n)
      = a * 10 ^ (natToStr n).length + n := by
  induction n using Nat.strong_induction_on with
  | _ n ih =>
    intro a
    by_cases h : n < 10
    · unfold natToStr
      rw [natToStrAux, if_pos h]
      simp [decDigitVal_digitChar n h]
    · have hlt : n / 10 < n := Nat.div_lt_self (by omega) (by omega)
      have hsplit : natToStr n = natToStr (n / 10) ++ [digitChar (n % 10)] := by
        unfold natToStr
        rw [natToStrAux, if_neg h]
        exact natToStrAux_append (n / 10) [digitChar (n % 10)]
      rw [hsplit, List.foldl_append, ih (n / 10) hlt a]
      simp only [List.foldl_cons, List.foldl_nil, List.length_append,
        List.length_cons, List.length_nil]
      rw [decDigitVal_digitChar (n % 10) (Nat.mod_lt n (by omega))]
      have hn := Nat.div_add_mod n 10
      rw [pow_succ]
      generalize (10 : Nat) ^ (natToStr (n / 10)).length = X
      generalize hq : n / 10 = q at hn ⊢
      generalize hr : n % 10 = r at hn ⊢
      rw [← hn]
      ring

/-- Parsing a rendered decimal returns the original number. -/
theorem parseDecimal_natToStr (n : Nat) : parseDecimal (natToStr n) = n := by
  have h := parse_natToStr_shift n 0
  simpa [parseDecimal] using h

/-! ### Data model: requests and the intent store -/

/-- Context from `src/types/broadcast.ts`: advisory quote metadata,
display-only. -/
structure Context where
  dispensation : Str
  dispensationUSD : Str
  spotOutputAmount : Str
  quoteOutputAmountDirect : Str
  quoteOutputAmountNet : Str
  slippageBips : Nat
  witnessTypeString : Str
  witnessHash : Str
  deriving DecidableEq

/-- BroadcastRequest from `src/types/broadcast.ts`; `claimHash` is the
optional derived hash the handlers attach (as a 256-bit value). -/
structure BroadcastRequest where
  chainId : Str
  compact : CompactMessage
  sponsorSignature : Str
  allocatorSignature : Str
  context : Context
  claimHash : Option Nat
  deriving DecidableEq

/-- StoredRequest from `src/server/store.ts`: a broadcast request plus the
millisecond storage timestamp. -/
structure StoredRequest where
  request : BroadcastRequest
  timestamp : Int
  deriving DecidableEq

/-- The `BroadcastStore`'s backing `Map`, keyed by `compact.id`, in
insertion order. -/
abbrev Store := List (Str × StoredRequest)

/-- JavaScript `Map.prototype.get`. -/
def mapGet (store : Store) (k : Str) : Option StoredRequest :=
  (store.find? (fun p => decide (p.1 = k))).map (fun p => p.2)

/-- JavaScript `Map.prototype.set`: update an existing key in place,
otherwise append. -/
def mapSet (store : Store) (k : Str) (v : StoredRequest) : Store :=
  if store.any (fun p => decide (p.1 = k)) then
    store.map (fun p => if p.1 = k then (k, v) else p)
  else
    store ++ [(k, v)]

/-- `BroadcastStore.addRequest`: store under `compact.id` with the current
millisecond timestamp. -/
def addRequest (nowMs : Int) (store : Store) (request : BroadcastRequest) : Store :=
  mapSet store request.compact.id { request := request, timestamp := nowMs }

/-- `BroadcastStore.isStaleRequest`: an entry is stale when either the
compact's or the mandate's expiry lies more than 3600 seconds in the past
(`now` is in seconds). -/
def isStaleRequest (now : Int) (r : StoredRequest) : Bool :=
  decide ((now - (parseDecimal r.request.compact.expires : Int) > 3600)) ||
  decide ((now - (parseDecimal r.request.compact.mandate.expires : Int) > 3600))

/-- `BroadcastStore.removeStaleRequests`: delete every stale entry. -/
def removeStaleRequests (now : Int) (store : Store) : Store :=
  store.filter (fun p => ! isStaleRequest now p.2)

/-- `BroadcastStore.getRequests`: drop stale entries, then return the
remaining values newest-first; returns the result list together with the
updated backing map. -/
def getRequests (now : Int) (store : Store) : List StoredRequest × Store :=
  (((removeStaleRequests now store).map (fun p => p.2)).mergeSort
      (fun a b => decide (b.timestamp ≤ a.timestamp)),
    removeStaleRequests now store)

/-- `BroadcastStore.getRequest`: look up by id; a stale hit is deleted and
reported as absent. -/
def getRequest (now : Int) (store : Store) (id : Str) : Option StoredRequest × Store :=
  match mapGet store id with
  | none => (none, store)
  | some req =>
    if isStaleRequest now req then
      (none, store.filter (fun p => ! decide (p.1 = id)))
    else
      (some req, store)

/-- `BroadcastStore.clearOldRequests`: drop entries stored more than
`maxAgeMs` milliseconds ago (default 24 h). -/
def clearOldRequests (nowMs : Int) (store : Store) (maxAgeMs : Int) : Store :=
  store.filter (fun p => ! decide (nowMs - p.2.timestamp > maxAgeMs))

/-- C6: domain-expiry eviction in the intent store.  An entry whose
compact expiry or mandate expiry lies more than 3600 seconds in the past is
omitted by `getRequests` and removed from the backing map, and
`getRequest` on its id reports it absent and deletes it; an entry within
the window is returned unchanged by both. -/
theorem C6_store_stale_eviction (now : Int) (store : Store) (id : Str) (sr : StoredRequest) :
    ((now - (parseDecimal sr.request.compact.expires : Int) > 3600 ∨
      now - (parseDecimal sr.request.compact.mandate.expires : Int) > 3600) →
      ((id, sr) ∈ store →
        sr ∉ (getRequests now store).1 ∧ (id, sr) ∉ (getRequests now store).2) ∧
      (mapGet store id = some sr →
        (getRequest now store id).1 = none ∧
        ∀ v, (id, v) ∉ (getRequest now store id).2)) ∧
    ((now - (parseDecimal sr.request.compact.expires : Int) ≤ 3600 ∧
      now - (parseDecimal sr.request.compact.mandate.expires : Int) ≤ 3600) →
      ((id, sr) ∈ store →
        sr ∈ (getRequests now store).1 ∧ (id, sr) ∈ (getRequests now store).2) ∧
      (mapGet store id = some sr →
        getRequest now store id = (some sr, store))) := by
  constructor
  · intro hdisj
    have hst : isStaleRequest now sr = true := by
      simp only [isStaleRequest, Bool.or_eq_true, decide_eq_true_eq]
      exact hdisj
    constructor
    · intro _
      constructor
      · intro hin
        unfold getRequests at hin
        rw [List.mem_mergeSort] at hin
        obtain ⟨p, hp, hpv⟩ := List.mem_map.mp hin
        have hkeep := (List.mem_filter.mp hp).2
        rw [hpv, hst] at hkeep
        exact Bool.noConfusion hkeep
      · intro hin
        have hkeep := (List.mem_filter.mp hin).2
        simp only at hkeep
        rw [hst] at hkeep
        exact Bool.noConfusion hkeep
    · intro hget
      unfold getRequest
      rw [hget]
      simp only [hst, if_true]
      refine ⟨by trivial, ?_⟩
      intro v hin
      have hkeep := (List.mem_filter.mp hin).2
      simp at hkeep
  · intro hconj
    have hst : isStaleRequest now sr = false := by
      simp only [isStaleRequest, Bool.or_eq_false_iff, decide_eq_false_iff_not]
      omega
    constructor
    · intro hmem
      have hmemf : (id, sr) ∈ removeStaleRequests now store :=
        List.mem_filter.mpr ⟨hmem, by simp [hst]⟩
      constructor
      · unfold getRequests
        rw [List.mem_mergeSort]
        exact List.mem_map.mpr ⟨(id, sr), hmemf, rfl⟩
      · exact hmemf
    · intro hget
      unfold getRequest
      rw [hget]
      simp only [hst]
      rfl

/-- Placeholder advisory context. -/
def contextStub : Context :=
  { dispensation := []
  , dispensationUSD := []
  , spotOutputAmount := []
  , quoteOutputAmountDirect := []
  , quoteOutputAmountNet := []
  , slippageBips := 0
  , witnessTypeString := []
  , witnessHash := [] }

/-- A concrete well-formed broadcast request over `compactLower`. -/
def requestA : BroadcastRequest :=
  { chainId := ("10").data
  , compact := compactLower
  , sponsorSignature := ("0x1234").data
  , allocatorSignature := ("0xabcd").data
  , context := contextStub
  , claimHash := none }

/-- `requestA` as stored at millisecond timestamp 5. -/
def storedA : StoredRequest := { request := requestA, timestamp := 5 }

/-- C6 witness: at time 1700010000 (more than an hour past `requestA`'s
expiries of 1700000000) the singleton store evicts the entry. -/
theorem C6_store_stale_eviction_witness :
    storedA ∉ (getRequests 1700010000 [(requestA.compact.id, storedA)]).1 ∧
    (getRequest 1700010000 [(requestA.compact.id, storedA)] requestA.compact.id).1 = none := by
  have h := C6_store_stale_eviction 1700010000 [(requestA.compact.id, storedA)]
    requestA.compact.id storedA
  have hd : (1700010000 : Int) - (parseDecimal storedA.request.compact.expires : Int) > 3600 ∨
      (1700010000 : Int) - (parseDecimal storedA.request.compact.mandate.expires : Int) > 3600 :=
    Or.inl (by decide)
  exact ⟨(((h.1 hd).1 (List.mem_singleton.mpr rfl)).1),
    ((h.1 hd).2 (by decide)).1⟩

/-! ### Signature verifier (`src/server/signature.ts`) -/

/-- Bytes of a hex string taken two digits at a time (viem's `toBytes` on a
`0x`-prefixed even-length hex string, after the prefix is stripped). -/
def hexPairsToBytes : Str → Bytes
  | [] => []
  | [_] => []
  | c1 :: c2 :: rest => (hexDigitVal c1 * 16 + hexDigitVal c2) :: hexPairsToBytes rest

/-- Byte representation of a `0x`-prefixed hex string. -/
def hexToBytes (s : Str) : Bytes := hexPairsToBytes (strip0x s)

/-- Chain-specific domain separator for Ethereum mainnet
(`CHAIN_PREFIXES.ethereum` in the source). -/
def CHAIN_DOMAIN_ETHEREUM : Str :=
  ("0x1901afbd5f3d34c216b31ba8b82d0b32ae91e4edea92dd5bbf4c1ad028f72364a211").data

/-- Chain-specific domain separator for Unichain. -/
def CHAIN_DOMAIN_UNICHAIN : Str :=
  ("0x190150e2b173e1ac2eac4e4995e45458f4cd549c256c423a041bf17d0c0a4a736d2c").data

/-- Chain-specific domain separator for Base. -/
def CHAIN_DOMAIN_BASE : Str :=
  ("0x1901a1324f3bfe91ee592367ae7552e9348145e65b410335d72e4507dcedeb41bf52").data

/-- Chain-specific domain separator for Optimism. -/
def CHAIN_DOMAIN_OPTIMISM : Str :=
  ("0x1901ea25de9c16847077fe9d95916c29598dc64f4850ba02c5dbe7800d2e2ecb338e").data

/-- The fixed allocator address from `src/server/signature.ts`. -/
def ALLOCATOR_ADDRESS : Str := ("0x51044301738Ba2a27bd9332510565eBE9F03546b").data

/-- The Compact registration typehash constant. -/
def COMPACT_REGISTRATION_TYPEHASH : Nat :=
  hexToNat (("0x27f09e0bb8ce2ae63380578af7af85055d3ada248c502e2378b85bc3d05ee0b0").data)

/-- The chainId switch of `verifyBroadcastRequest`; `none` models the
thrown `Unsupported chain ID` error. -/
def chainDomainFor (chainId : Str) : Option Bytes :=
  if chainId = ("1").data then some (hexToBytes CHAIN_DOMAIN_ETHEREUM)
  else if chainId = ("10").data then some (hexToBytes CHAIN_DOMAIN_OPTIMISM)
  else if chainId = ("8453").data then some (hexToBytes CHAIN_DOMAIN_BASE)
  else if chainId = ("130").data then some (hexToBytes CHAIN_DOMAIN_UNICHAIN)
  else none

/-- Embedding of `verifySignature` from `src/server/signature.ts`: hash the
chain domain separator concatenated with the 32 claim-hash bytes, then
recover the signer.  Compact-signature expansion plus `recoverAddress` is
the `recover` oracle; `none` models a throw, which the source catches and
turns into `false`.  The address comparison is lower-cased on both sides as
in the source. -/
def verifySignature (keccak : Bytes → Nat) (recover : Nat → Str → Option Str)
    (claimHash : Nat) (signature : Str) (expectedSigner : Str)
    (chainDomain : Bytes) : Bool :=
  match recover (keccak (chainDomain ++ word256 claimHash)) signature with
  | some recovered => decide (toLowerCase recovered = toLowerCase expectedSigner)
  | none => false

/-- The mandate hash of `src/server/signature.ts` (`deriveMandateHash`):
same tuple as the client hasher but without lower-casing the addresses;
`mandate.expires` goes through `parseInt`. -/
def deriveMandateHash (keccak : Bytes → Nat) (mandate : Mandate) : Nat :=
  keccak (encodeWords
    [ keccak (toByteValues MANDATE_TYPESTRING)
    , mandate.chainId
    , hexToNat mandate.tribunal
    , hexToNat mandate.recipient
    , parseDecimal mandate.expires
    , hexToNat mandate.token
    , parseDecimal mandate.minimumAmount
    , parseDecimal mandate.baselinePriorityFee
    , parseDecimal mandate.scalingFactor
    , hexToNat mandate.salt ])

/-- The claim hash of `src/server/signature.ts` (`deriveClaimHash` there):
ABI-encode the compact tuple around the mandate hash, without lower-casing. -/
def deriveClaimHashSignature (keccak : Bytes → Nat)
    (arbiter sponsor nonce expiration id amount : Str) (mandate : Mandate) : Nat :=
  keccak (encodeWords
    [ keccak (toByteValues COMPACT_TYPESTRING)
    , hexToNat arbiter
    , hexToNat sponsor
    , parseDecimal nonce
    , parseDecimal expiration
    , parseDecimal id
    , parseDecimal amount
    , deriveMandateHash keccak mandate ])

/-- The claim hash `verifyBroadcastRequest` uses: the caller-supplied one
when present (`request.claimHash || deriveClaimHash(...)`), otherwise the
derived one; an absent nonce would read as the empty string, whose numeric
value is 0, matching `request.compact.nonce || ''`. -/
def claimHashOf (keccak : Bytes → Nat) (request : BroadcastRequest) : Nat :=
  match request.claimHash with
  | some h => h
  | none => deriveClaimHashSignature keccak request.compact.arbiter
      request.compact.sponsor request.compact.nonce request.compact.expires
      request.compact.id request.compact.amount request.compact.mandate

/-- Thrown by `verifyBroadcastRequest` on an unsupported chain id. -/
inductive VerifyError where
  | unsupportedChain
  deriving DecidableEq

/-- Result record of `verifyBroadcastRequest`. -/
structure VerifyResult where
  isValid : Bool
  isOnchainRegistration : Bool
  deriving DecidableEq

/-- Registration-oracle answer (`getRegistrationStatus`). -/
structure RegistrationStatus where
  isActive : Bool
  expires : Nat
  deriving DecidableEq

/-- The synthesized placeholder sponsor signature:
`'0x' + '0'.repeat(128)`, i.e. 64 zero bytes in hex. -/
def zeroSponsorSignature : Str := '0' :: 'x' :: List.replicate 128 '0'

/-- The in-place mutation applied when an active registration backs the
request: replace the sponsor signature by the zero placeholder and clamp
`compact.expires` to the registration expiry when that is smaller. -/
def applyRegistration (request : BroadcastRequest) (regExpires : Nat) : BroadcastRequest :=
  { request with
    sponsorSignature := zeroSponsorSignature
  , compact := { request.compact with
      expires := if regExpires < parseDecimal request.compact.expires
        then natToStr regExpires else request.compact.expires } }

/-- Embedding of `verifyBroadcastRequest` from `src/server/signature.ts`.
`recover` and `getRegistrationStatus` are the ecrecover and on-chain
oracles (`none` models a thrown/caught failure).  The function returns the
result record together with the (possibly mutated) request object. -/
def verifyBroadcastRequest (keccak : Bytes → Nat) (recover : Nat → Str → Option Str)
    (getRegistrationStatus : Nat → Str → Nat → Nat → Option RegistrationStatus)
    (request : BroadcastRequest) : Except VerifyError (VerifyResult × BroadcastRequest) :=
  match chainDomainFor request.chainId with
  | none => .error .unsupportedChain
  | some chainDomain =>
    if verifySignature keccak recover (claimHashOf keccak request)
        request.sponsorSignature request.compact.sponsor chainDomain then
      if verifySignature keccak recover (claimHashOf keccak request)
          request.allocatorSignature ALLOCATOR_ADDRESS chainDomain then
        .ok ({ isValid := true, isOnchainRegistration := false }, request)
      else
        .ok ({ isValid := false, isOnchainRegistration := false }, request)
    else
      match getRegistrationStatus (parseDecimal request.chainId) request.compact.sponsor
          (claimHashOf keccak request) COMPACT_REGISTRATION_TYPEHASH with
      | some status =>
        if status.isActive then
          if verifySignature keccak recover (claimHashOf keccak request)
              request.allocatorSignature ALLOCATOR_ADDRESS chainDomain then
            .ok ({ isValid := true, isOnchainRegistration := true },
              applyRegistration request status.expires)
          else
            .ok ({ isValid := false, isOnchainRegistration := true },
              applyRegistration request status.expires)
        else
          .ok ({ isValid := false, isOnchainRegistration := false }, request)
      | none => .ok ({ isValid := false, isOnchainRegistration := false }, request)

/-- C5 (amended): on a supported chain, a request whose sponsor signature
fails to recover but which has an active on-chain registration — and whose
allocator signature verifies against the fixed allocator address — yields
`isValid = true, isOnchainRegistration = true`; the stored record's sponsor
signature is replaced by the 64-zero-byte placeholder and its
`compact.expires` becomes the minimum of the original expiry and the
registration expiry.  The allocator hypothesis is what the original claim
missed: without it the function returns `isValid = false`. -/
theorem C5_registration_fallback_amended (keccak : Bytes → Nat)
    (recover : Nat → Str → Option Str)
    (getReg : Nat → Str → Nat → Nat → Option RegistrationStatus)
    (request : BroadcastRequest) (chainDomain : Bytes) (regExpires : Nat)
    (hchain : chainDomainFor request.chainId = some chainDomain)
    (hsponsor : verifySignature keccak recover (claimHashOf keccak request)
      request.sponsorSignature request.compact.sponsor chainDomain = false)
    (hreg : getReg (parseDecimal request.chainId) request.compact.sponsor
      (claimHashOf keccak request) COMPACT_REGISTRATION_TYPEHASH
      = some { isActive := true, expires := regExpires })
    (halloc : verifySignature keccak recover (claimHashOf keccak request)
      request.allocatorSignature ALLOCATOR_ADDRESS chainDomain = true) :
    verifyBroadcastRequest keccak recover getReg request =
      .ok ({ isValid := true, isOnchainRegistration := true },
        applyRegistration request regExpires) ∧
    (applyRegistration request regExpires).sponsorSignature = zeroSponsorSignature ∧
    parseDecimal (applyRegistration request regExpires).compact.expires
      = min regExpires (parseDecimal request.compact.expires) := by
  refine ⟨?_, rfl, ?_⟩
  · unfold verifyBroadcastRequest
    rw [hchain]
    simp only [hsponsor, hreg, halloc, Bool.false_eq_true, if_false, if_true]
  · by_cases hlt : regExpires < parseDecimal request.compact.expires
    · simp only [applyRegistration, if_pos hlt, parseDecimal_natToStr]
      omega
    · simp only [applyRegistration, if_neg hlt]
      omega

/-- A fixed hash primitive for concrete evaluations. -/
def keccakZero : Bytes → Nat := fun _ => 0

/-- A recovery oracle that always fails (every signature malformed). -/
def recoverNone : Nat → Str → Option Str := fun _ _ => none

/-- A recovery oracle under which only the literal signature `0xa11c`
recovers, to the allocator address. -/
def recoverAllocOnly : Nat → Str → Option Str := fun _ sig =>
  if sig = ("0xa11c").data then some ALLOCATOR_ADDRESS else none

/-- A registration oracle reporting every claim active until 99. -/
def regAlwaysActive : Nat → Str → Nat → Nat → Option RegistrationStatus :=
  fun _ _ _ _ => some { isActive := true, expires := 99 }

/-- A concrete broadcast request on Optimism with caller-supplied claim
hash 7 and allocator signature `0xa11c`. -/
def requestReg : BroadcastRequest :=
  { chainId := ("10").data
  , compact := compactLower
  , sponsorSignature := ("0xffff").data
  , allocatorSignature := ("0xa11c").data
  , context := contextStub
  , claimHash := some 7 }

/-- C5 counterexample: `requestReg` under the always-failing recovery
oracle satisfies every hypothesis of the claim — supported chain, sponsor
signature does not recover, registration reported active — yet
`verifyBroadcastRequest` returns `isValid = false` (because the allocator
signature does not verify either), refuting the claim as stated. -/
theorem C5_registration_fallback_counterexample :
    verifySignature keccakZero recoverNone (claimHashOf keccakZero requestReg)
      requestReg.sponsorSignature requestReg.compact.sponsor
      (hexToBytes CHAIN_DOMAIN_OPTIMISM) = false ∧
    chainDomainFor requestReg.chainId = some (hexToBytes CHAIN_DOMAIN_OPTIMISM) ∧
    regAlwaysActive (parseDecimal requestReg.chainId) requestReg.compact.sponsor
      (claimHashOf keccakZero requestReg) COMPACT_REGISTRATION_TYPEHASH
      = some { isActive := true, expires := 99 } ∧
    (verifyBroadcastRequest keccakZero recoverNone regAlwaysActive requestReg).map
      (fun p => p.1.isValid) = .ok false :=
  ⟨rfl, rfl, rfl, rfl⟩

/-- C5 witness: the amended theorem applied to `requestReg` with a
recovery oracle under which the allocator signature verifies. -/
theorem C5_registration_fallback_amended_witness :
    verifyBroadcastRequest keccakZero recoverAllocOnly regAlwaysActive requestReg =
      .ok ({ isValid := true, isOnchainRegistration := true },
        applyRegistration requestReg 99) ∧
    (applyRegistration requestReg 99).sponsorSignature = zeroSponsorSignature ∧
    parseDecimal (applyRegistration requestReg 99).compact.expires
      = min 99 (parseDecimal requestReg.compact.expires) :=
  C5_registration_fallback_amended keccakZero recoverAllocOnly regAlwaysActive
    requestReg (hexToBytes CHAIN_DOMAIN_OPTIMISM) 99 rfl rfl rfl rfl

/-! ### Ingestion endpoint: the `/broadcast` handler of `src/server/index.ts` -/

/-- A hex digit as matched by the handler's `[0-9a-fA-F]` character class. -/
def isHexDigitChar (c : Char) : Bool :=
  (48 ≤ c.toNat && c.toNat ≤ 57) || (97 ≤ c.toNat && c.toNat ≤ 102) ||
  (65 ≤ c.toNat && c.toNat ≤ 70)

/-- The handler's `isValidHexString`: a `0x` prefix followed by a nonempty
even-length run of hex digits. -/
def isValidHexString (value : Str) : Bool :=
  match value with
  | '0' :: 'x' :: hex => hex.length % 2 == 0 && ! hex.isEmpty && hex.all isHexDigitChar
  | _ => false

/-- The handler's `isValidAddress`: a `0x` prefix followed by exactly 40
hex digits. -/
def isValidAddress (value : Str) : Bool :=
  match value with
  | '0' :: 'x' :: hex => hex.length == 40 && hex.all isHexDigitChar
  | _ => false

/-- The observable steps of one `/broadcast` request, in invocation order:
claim-hash computation, the signature verifier of `signature.ts`, the
lock-details lookup, the store insertion, and the relay fan-out. -/
inductive IngestEvent where
  | hashCompute
  | verifySignatures
  | lockDetails
  | storeAdd
  | relayBroadcast
  deriving DecidableEq

/-- The JSON body of the handler's HTTP response: `success`, the echoed
`requestId`, and whether the degraded-broadcast `warning` field is
present (the human-readable message strings are display-only). -/
structure IngestResponse where
  success : Bool
  requestId : Option Str
  warning : Bool
  deriving DecidableEq

/-- Embedding of the `/broadcast` handler (`app.post('/broadcast', ...)` in
`src/server/index.ts`): validate address and hex formats, require a chain
id, derive the claim hash (a thrown validation error becomes a 400
response), perform the lock-details lookup (whose outcome — `lockDetailsOk`
— is logged and otherwise ignored), store the request under `compact.id`
with the current timestamp, fan out over the relay (`relayOk` is the
outcome of the race against the 10 s timeout; failure only adds a warning),
and finally clear requests stored more than 24 h ago.  The third component
records which pipeline steps ran, in order. -/
def handleBroadcast (keccak : Bytes → Nat) (lockDetailsOk relayOk : Bool) (nowMs : Int)
    (store : Store) (payload : BroadcastRequest) :
    IngestResponse × Store × List IngestEvent :=
  if ! isValidAddress payload.compact.arbiter then
    ({ success := false, requestId := none, warning := false }, store, [])
  else if ! isValidAddress payload.compact.sponsor then
    ({ success := false, requestId := none, warning := false }, store, [])
  else if ! isValidAddress payload.compact.mandate.tribunal then
    ({ success := false, requestId := none, warning := false }, store, [])
  else if ! isValidAddress payload.compact.mandate.recipient then
    ({ success := false, requestId := none, warning := false }, store, [])
  else if ! isValidAddress payload.compact.mandate.token then
    ({ success := false, requestId := none, warning := false }, store, [])
  else if ! isValidHexString payload.sponsorSignature then
    ({ success := false, requestId := none, warning := false }, store, [])
  else if ! isValidHexString payload.allocatorSignature then
    ({ success := false, requestId := none, warning := false }, store, [])
  else if payload.chainId = [] then
    ({ success := false, requestId := none, warning := false }, store, [])
  else
    match deriveClaimHash keccak (parseDecimal payload.chainId) payload.compact with
    | .error _ => ({ success := false, requestId := none, warning := false }, store,
        [.hashCompute])
    | .ok ch =>
      ({ success := true, requestId := some payload.compact.id, warning := ! relayOk },
        clearOldRequests nowMs
          (addRequest nowMs store { payload with claimHash := some ch }) 86400000,
        [.hashCompute, .lockDetails, .storeAdd, .relayBroadcast])

theorem mem_mapSet (store : Store) (k : Str) (v : StoredRequest) :
    (k, v) ∈ mapSet store k v := by
  unfold mapSet
  split
  · rename_i hany
    rw [List.any_eq_true] at hany
    obtain ⟨p, hp, hpk⟩ := hany
    rw [decide_eq_true_eq] at hpk
    refine List.mem_map.mpr ⟨p, hp, ?_⟩
    rw [if_pos hpk]
  · exact List.mem_append.mpr (Or.inr (List.mem_singleton.mpr rfl))

/-- C1 (amended): a well-formed broadcast request — valid address and hex
formats, a chain id, and a claim hash that derives without error — is
always accepted: the handler computes the hash, performs the lock-details
lookup, stores the request and fans out over the relay, in that order, and
never invokes the signature verifier of `signature.ts`; in particular the
freshly stored entry is present in the final store regardless of whether
its signatures would verify. -/
theorem C1_ingest_pipeline_amended (keccak : Bytes → Nat) (lockOk relayOk : Bool)
    (nowMs : Int) (store : Store) (payload : BroadcastRequest)
    (h1 : isValidAddress payload.compact.arbiter = true)
    (h2 : isValidAddress payload.compact.sponsor = true)
    (h3 : isValidAddress payload.compact.mandate.tribunal = true)
    (h4 : isValidAddress payload.compact.mandate.recipient = true)
    (h5 : isValidAddress payload.compact.mandate.token = true)
    (h6 : isValidHexString payload.sponsorSignature = true)
    (h7 : isValidHexString payload.allocatorSignature = true)
    (h8 : payload.chainId ≠ [])
    (ch : Nat)
    (h9 : deriveClaimHash keccak (parseDecimal payload.chainId) payload.compact = .ok ch) :
    (handleBroadcast keccak lockOk relayOk nowMs store payload).1.success = true ∧
    (handleBroadcast keccak lockOk relayOk nowMs store payload).2.2
      = [.hashCompute, .lockDetails, .storeAdd, .relayBroadcast] ∧
    IngestEvent.verifySignatures ∉
      (handleBroadcast keccak lockOk relayOk nowMs store payload).2.2 ∧
    (payload.compact.id,
      { request := { payload with claimHash := some ch }, timestamp := nowMs })
      ∈ (handleBroadcast keccak lockOk relayOk nowMs store payload).2.1 := by
  have hred : handleBroadcast keccak lockOk relayOk nowMs store payload
      = ({ success := true, requestId := some payload.compact.id, warning := ! relayOk },
        clearOldRequests nowMs
          (addRequest nowMs store { payload with claimHash := some ch }) 86400000,
        [.hashCompute, .lockDetails, .storeAdd, .relayBroadcast]) := by
    unfold handleBroadcast
    simp only [h1, h2, h3, h4, h5, h6, h7, h9, Bool.not_true, Bool.false_eq_true,
      if_false, if_neg h8]
  rw [hred]
  refine ⟨rfl, rfl, ?_, ?_⟩
  · show IngestEvent.verifySignatures ∉
      [IngestEvent.hashCompute, IngestEvent.lockDetails, IngestEvent.storeAdd,
        IngestEvent.relayBroadcast]
    decide
  apply List.mem_filter.mpr
  constructor
  · exact mem_mapSet store payload.compact.id _
  · simp

/-- C1 witness: the amended pipeline law applied to the concrete
well-formed request `requestA` on an empty store. -/
theorem C1_ingest_pipeline_amended_witness :
    (handleBroadcast keccakZero true true 1000 [] requestA).1.success = true ∧
    (handleBroadcast keccakZero true true 1000 [] requestA).2.2
      = [.hashCompute, .lockDetails, .storeAdd, .relayBroadcast] ∧
    IngestEvent.verifySignatures ∉
      (handleBroadcast keccakZero true true 1000 [] requestA).2.2 ∧
    (requestA.compact.id,
      { request := { requestA with claimHash := some 0 }, timestamp := 1000 })
      ∈ (handleBroadcast keccakZero true true 1000 [] requestA).2.1 :=
  C1_ingest_pipeline_amended keccakZero true true 1000 [] requestA
    rfl rfl rfl rfl rfl rfl rfl (by decide) 0 rfl

/-- A registration oracle that always throws (caught by the verifier and
treated as not registered). -/
def regNeverAnswers : Nat → Str → Nat → Nat → Option RegistrationStatus :=
  fun _ _ _ _ => none

/-- C1 counterexample: `requestA` is a request whose signatures do not
verify and that has no active registration — the signature verifier of
`signature.ts` itself returns `isValid = false` on it — yet the `/broadcast`
handler accepts it (`success = true`), stores it, and never runs the
signature verifier: its event trace contains no verification step. -/
theorem C1_ingest_counterexample :
    (verifyBroadcastRequest keccakZero recoverNone regNeverAnswers requestA).map
      (fun p => p.1.isValid) = .ok false ∧
    (handleBroadcast keccakZero true true 1000 [] requestA).1.success = true ∧
    IngestEvent.verifySignatures ∉
      (handleBroadcast keccakZero true true 1000 [] requestA).2.2 ∧
    mapGet (handleBroadcast keccakZero true true 1000 [] requestA).2.1
      requestA.compact.id ≠ none :=
  ⟨rfl, rfl, by decide, by decide⟩

end Fillanthropist
